import Mathlib

/-!
Verification of the `pricedb-io-npm` TypeScript SDK (packages
`@pricedb-io/client` and `@pricedb-io/spells`).

The two clients (`src/packages/pricedb-client/src/client.ts` and
`src/packages/spells-client/src/client.ts`) are thin HTTP wrappers: each
endpoint method builds a URL string (using the JavaScript builtins
`encodeURIComponent` and `URLSearchParams`) and funnels it through one
private `request` helper that races a `fetch` against an abort timer.

This file shallowly embeds that code: strings are Lean `String`s
(JavaScript strings restricted to well-formed sequences of Unicode
scalar values, which is what `List Char` models), JavaScript objects
used as string maps are association lists where a later binding wins,
the async transport is modelled by an explicit outcome/arrival oracle,
and each endpoint method is a pure function from the client
configuration and its own parameters to the request it issues.
-/

/-! ### JavaScript `encodeURIComponent`

`encodeURIComponent` leaves the unreserved characters
`A-Z a-z 0-9 - _ . ! ~ * ( )` and the apostrophe unchanged and
replaces every other
character by the percent-encoding of its UTF-8 bytes, using uppercase
hexadecimal digits. -/

/-- Uppercase hexadecimal digit for `n < 16`, as produced by
`encodeURIComponent`. -/
def toHexDigit (n : Nat) : Char :=
  if n < 10 then Char.ofNat (48 + n) else Char.ofNat (55 + n)

/-- Percent-encoding `%XX` of one byte. -/
def percentByte (b : Nat) : List Char :=
  ['%', toHexDigit (b / 16), toHexDigit (b % 16)]

/-- UTF-8 bytes of a Unicode scalar value (the encoding used by
`encodeURIComponent` for non-unreserved characters). -/
def utf8Bytes (n : Nat) : List Nat :=
  if n < 128 then [n]
  else if n < 2048 then [192 + n / 64, 128 + n % 64]
  else if n < 65536 then [224 + n / 4096, 128 + n / 64 % 64, 128 + n % 64]
  else [240 + n / 262144, 128 + n / 4096 % 64, 128 + n / 64 % 64, 128 + n % 64]

/-- Percent-encode a byte sequence. -/
def percentBytes (bs : List Nat) : List Char :=
  bs.flatMap percentByte

/-- Characters `encodeURIComponent` leaves unescaped:
`A-Z a-z 0-9 - _ . ! ~ * ( )` together with the apostrophe. -/
def isUnreservedURI (c : Char) : Bool :=
  c.isAlpha || c.isDigit || c = '-' || c = '_' || c = '.' || c = '!' ||
    c = '~' || c = '*' || c = Char.ofNat 39 || c = '(' || c = ')'

/-- Encoding of a single character by `encodeURIComponent`. -/
def encodeChar (c : Char) : List Char :=
  if isUnreservedURI c then [c] else percentBytes (utf8Bytes c.toNat)

/-- JavaScript `encodeURIComponent` on a character sequence. -/
def encodeURIComponent (s : List Char) : List Char :=
  s.flatMap encodeChar

/-- JavaScript `encodeURIComponent` on a `String`. -/
def encodeURIComponentS (s : String) : String :=
  ⟨encodeURIComponent s.data⟩

example : encodeURIComponentS "40;11;kt-3" = "40%3B11%3Bkt-3" := by decide
example : encodeURIComponentS "a b/c?d#e" = "a%20b%2Fc%3Fd%23e" := by decide
example : encodeURIComponentS "é" = "%C3%A9" := by decide

/-! ### Injectivity of `encodeURIComponent`

The encoding is a prefix code: stripping the leading well-formed `%XX`
groups and UTF-8 decoding the resulting bytes recovers the first source
character unambiguously. -/

/-- Value of one uppercase hexadecimal digit character. -/
def decodeHex (c : Char) : Nat :=
  if c.toNat ≤ 57 then c.toNat - 48 else c.toNat - 55

/-- Recognizer for the characters produced by `toHexDigit`. -/
def isHexDigitU (c : Char) : Bool :=
  (48 ≤ c.toNat && c.toNat ≤ 57) || (65 ≤ c.toNat && c.toNat ≤ 70)

lemma decodeHex_toHexDigit : ∀ n < 16, decodeHex (toHexDigit n) = n := by decide

lemma isHexDigitU_toHexDigit : ∀ n < 16, isHexDigitU (toHexDigit n) = true := by decide

lemma decodeHex_lt {c : Char} (h : isHexDigitU c = true) : decodeHex c < 16 := by
  unfold isHexDigitU at h
  simp only [Bool.or_eq_true, Bool.and_eq_true, decide_eq_true_eq] at h
  unfold decodeHex
  by_cases hc : c.toNat ≤ 57
  · rw [if_pos hc]; omega
  · rw [if_neg hc]; omega

lemma toHexDigit_decodeHex {c : Char} (h : isHexDigitU c = true) :
    toHexDigit (decodeHex c) = c := by
  unfold isHexDigitU at h
  simp only [Bool.or_eq_true, Bool.and_eq_true, decide_eq_true_eq] at h
  rcases h with ⟨h1, h2⟩ | ⟨h1, h2⟩
  · unfold decodeHex
    rw [if_pos h2]
    unfold toHexDigit
    rw [if_pos (by omega)]
    have : 48 + (c.toNat - 48) = c.toNat := by omega
    rw [this, Char.ofNat_toNat]
  · unfold decodeHex
    rw [if_neg (by omega)]
    unfold toHexDigit
    rw [if_neg (by omega)]
    have : 55 + (c.toNat - 55) = c.toNat := by omega
    rw [this, Char.ofNat_toNat]

/-- Greedily convert a maximal prefix of well-formed `%XX` groups back
into bytes, returning the remainder of the character list. -/
def stripPercents : List Char → List Nat × List Char
  | '%' :: d1 :: d2 :: rest =>
    if isHexDigitU d1 && isHexDigitU d2 then
      ((16 * decodeHex d1 + decodeHex d2) :: (stripPercents rest).1,
        (stripPercents rest).2)
    else ([], '%' :: d1 :: d2 :: rest)
  | l => ([], l)

lemma stripPercents_percentByte (b : Nat) (hb : b < 256) (t : List Char) :
    stripPercents (percentByte b ++ t) =
      (b :: (stripPercents t).1, (stripPercents t).2) := by
  have h1 : b / 16 < 16 := by omega
  have h2 : b % 16 < 16 := by omega
  show stripPercents ('%' :: toHexDigit (b / 16) :: toHexDigit (b % 16) :: t) = _
  rw [stripPercents]
  rw [isHexDigitU_toHexDigit _ h1, isHexDigitU_toHexDigit _ h2]
  simp only [Bool.and_self, if_true]
  rw [decodeHex_toHexDigit _ h1, decodeHex_toHexDigit _ h2]
  have : 16 * (b / 16) + b % 16 = b := by omega
  rw [this]

lemma stripPercents_append (bs : List Nat) (h : ∀ b ∈ bs, b < 256)
    (t : List Char) :
    stripPercents (percentBytes bs ++ t) =
      (bs ++ (stripPercents t).1, (stripPercents t).2) := by
  induction bs with
  | nil => simp [percentBytes]
  | cons b rest ih =>
    have hb : b < 256 := h b (List.mem_cons_self b rest)
    have hrest : ∀ x ∈ rest, x < 256 := fun x hx => h x (List.mem_cons_of_mem b hx)
    have : percentBytes (b :: rest) ++ t = percentByte b ++ (percentBytes rest ++ t) := by
      simp [percentBytes, List.append_assoc]
    rw [this, stripPercents_percentByte b hb, ih hrest]
    simp

lemma stripPercents_roundtrip (t : List Char) :
    percentBytes (stripPercents t).1 ++ (stripPercents t).2 = t := by
  induction t using stripPercents.induct with
  | case1 d1 d2 rest hguard ih =>
    rw [stripPercents, if_pos hguard]
    have hd1 : isHexDigitU d1 = true := by
      rcases Bool.and_eq_true _ _ |>.mp hguard with ⟨h1, _⟩; exact h1
    have hd2 : isHexDigitU d2 = true := by
      rcases Bool.and_eq_true _ _ |>.mp hguard with ⟨_, h2⟩; exact h2
    have e1 : decodeHex d1 < 16 := decodeHex_lt hd1
    have e2 : decodeHex d2 < 16 := decodeHex_lt hd2
    have hbyte : percentByte (16 * decodeHex d1 + decodeHex d2) = ['%', d1, d2] := by
      unfold percentByte
      have hq : (16 * decodeHex d1 + decodeHex d2) / 16 = decodeHex d1 := by omega
      have hr : (16 * decodeHex d1 + decodeHex d2) % 16 = decodeHex d2 := by omega
      rw [hq, hr, toHexDigit_decodeHex hd1, toHexDigit_decodeHex hd2]
    have : percentBytes ((16 * decodeHex d1 + decodeHex d2) :: (stripPercents rest).1) =
        percentByte (16 * decodeHex d1 + decodeHex d2) ++ percentBytes (stripPercents rest).1 := by
      simp [percentBytes]
    simp only [this, hbyte, List.append_assoc, List.cons_append, List.nil_append]
    rw [ih]
  | case2 d1 d2 rest hguard =>
    rw [stripPercents, if_neg hguard]
    simp [percentBytes]
  | case3 l h =>
    rw [stripPercents.eq_def]
    split
    · rename_i d1 d2 rest
      exact (h d1 d2 rest rfl).elim
    · simp [percentBytes]

/-- UTF-8 decoding of the first scalar value in a byte sequence. -/
def utf8Decode (l : List Nat) : Option (Nat × List Nat) :=
  match l with
  | [] => none
  | b :: rest =>
    if b < 128 then some (b, rest)
    else if b < 224 then
      match rest with
      | b2 :: rest2 => some ((b - 192) * 64 + (b2 - 128), rest2)
      | [] => none
    else if b < 240 then
      match rest with
      | b2 :: b3 :: rest3 =>
        some ((b - 224) * 4096 + (b2 - 128) * 64 + (b3 - 128), rest3)
      | _ => none
    else
      match rest with
      | b2 :: b3 :: b4 :: rest4 =>
        some ((b - 240) * 262144 + (b2 - 128) * 4096 + (b3 - 128) * 64 + (b4 - 128),
          rest4)
      | _ => none

lemma utf8Decode_encode (n : Nat) (h : n < 1114112) (rest : List Nat) :
    utf8Decode (utf8Bytes n ++ rest) = some (n, rest) := by
  unfold utf8Bytes
  split_ifs with h1 h2 h3
  · simp only [List.cons_append, List.nil_append, utf8Decode]
    rw [if_pos h1]
  · simp only [List.cons_append, List.nil_append, utf8Decode]
    rw [if_neg (by omega), if_pos (by omega)]
    have : (192 + n / 64 - 192) * 64 + (128 + n % 64 - 128) = n := by omega
    rw [this]
  · simp only [List.cons_append, List.nil_append, utf8Decode]
    rw [if_neg (by omega), if_neg (by omega), if_pos (by omega)]
    have : (224 + n / 4096 - 224) * 4096 + (128 + n / 64 % 64 - 128) * 64 +
        (128 + n % 64 - 128) = n := by omega
    rw [this]
  · simp only [List.cons_append, List.nil_append, utf8Decode]
    rw [if_neg (by omega), if_neg (by omega), if_neg (by omega)]
    have : (240 + n / 262144 - 240) * 262144 + (128 + n / 4096 % 64 - 128) * 4096 +
        (128 + n / 64 % 64 - 128) * 64 + (128 + n % 64 - 128) = n := by omega
    rw [this]

lemma utf8Bytes_lt (n : Nat) (h : n < 1114112) : ∀ b ∈ utf8Bytes n, b < 256 := by
  unfold utf8Bytes
  split_ifs <;> intro b hb <;> fin_cases hb <;> omega

lemma utf8Bytes_ne_nil (n : Nat) : utf8Bytes n ≠ [] := by
  unfold utf8Bytes
  split_ifs <;> simp

lemma char_toNat_lt (c : Char) : c.toNat < 1114112 := by
  rcases c.valid with h | h
  · exact Nat.lt_trans h (by decide)
  · exact h.2

lemma char_toNat_inj {c1 c2 : Char} (h : c1.toNat = c2.toNat) : c1 = c2 :=
  Char.eq_of_val_eq (by exact UInt32.toNat.inj h)

lemma utf8_cancel {m n : Nat} (vm : m < 1114112) (vn : n < 1114112)
    {t1 t2 : List Char}
    (h : percentBytes (utf8Bytes m) ++ t1 = percentBytes (utf8Bytes n) ++ t2) :
    m = n ∧ t1 = t2 := by
  have e1 := stripPercents_append (utf8Bytes m) (utf8Bytes_lt m vm) t1
  have e2 := stripPercents_append (utf8Bytes n) (utf8Bytes_lt n vn) t2
  rw [h, e2] at e1
  rw [Prod.mk.injEq] at e1
  obtain ⟨hb, hr⟩ := e1
  have d1 := utf8Decode_encode m vm (stripPercents t1).1
  have d2 := utf8Decode_encode n vn (stripPercents t2).1
  rw [hb, d1] at d2
  have hp := Option.some.inj d2
  rw [Prod.mk.injEq] at hp
  obtain ⟨hmn, hs⟩ := hp
  refine ⟨hmn, ?_⟩
  have r1 := stripPercents_roundtrip t1
  have r2 := stripPercents_roundtrip t2
  rw [← r1, hs, ← hr]
  exact r2

lemma encodeChar_head_percent (c : Char) (h : isUnreservedURI c = false) :
    ∃ rest, encodeChar c = '%' :: rest := by
  unfold encodeChar
  rw [h]
  simp only [Bool.false_eq_true, if_false]
  cases hu : utf8Bytes c.toNat with
  | nil => exact absurd hu (utf8Bytes_ne_nil _)
  | cons b bs =>
    refine ⟨toHexDigit (b / 16) :: toHexDigit (b % 16) :: percentBytes bs, ?_⟩
    simp [percentBytes, percentByte]

lemma encodeChar_ne_nil (c : Char) : encodeChar c ≠ [] := by
  unfold encodeChar
  split
  · simp
  · cases hu : utf8Bytes c.toNat with
    | nil => exact absurd hu (utf8Bytes_ne_nil _)
    | cons b bs => simp [hu, percentBytes, percentByte]

lemma encodeChar_cancel {c1 c2 : Char} {e1 e2 : List Char}
    (h : encodeChar c1 ++ e1 = encodeChar c2 ++ e2) : c1 = c2 ∧ e1 = e2 := by
  by_cases u1 : isUnreservedURI c1 = true <;> by_cases u2 : isUnreservedURI c2 = true
  · unfold encodeChar at h
    rw [if_pos u1, if_pos u2] at h
    simpa using h
  · exfalso
    rw [Bool.not_eq_true] at u2
    obtain ⟨rest, hr⟩ := encodeChar_head_percent c2 u2
    rw [hr] at h
    unfold encodeChar at h
    rw [if_pos u1] at h
    simp only [List.cons_append, List.singleton_append, List.cons.injEq] at h
    have : c1 = '%' := h.1
    subst this
    exact absurd u1 (by decide)
  · exfalso
    rw [Bool.not_eq_true] at u1
    obtain ⟨rest, hr⟩ := encodeChar_head_percent c1 u1
    rw [hr] at h
    unfold encodeChar at h
    rw [if_pos u2] at h
    simp only [List.cons_append, List.singleton_append, List.cons.injEq] at h
    have : c2 = '%' := h.1.symm
    subst this
    exact absurd u2 (by decide)
  · rw [Bool.not_eq_true] at u1 u2
    unfold encodeChar at h
    rw [if_neg (by simp [u1]), if_neg (by simp [u2])] at h
    obtain ⟨hn, he⟩ := utf8_cancel (char_toNat_lt c1) (char_toNat_lt c2) h
    exact ⟨char_toNat_inj hn, he⟩

lemma encodeURIComponent_inj : ∀ {s1 s2 : List Char},
    encodeURIComponent s1 = encodeURIComponent s2 → s1 = s2 := by
  intro s1
  induction s1 with
  | nil =>
    intro s2 h
    cases s2 with
    | nil => rfl
    | cons c r =>
      exfalso
      simp only [encodeURIComponent, List.flatMap_nil, List.flatMap_cons] at h
      rcases List.append_eq_nil.mp h.symm with ⟨hc, -⟩
      exact encodeChar_ne_nil c hc
  | cons c r ih =>
    intro s2 h
    cases s2 with
    | nil =>
      exfalso
      simp only [encodeURIComponent, List.flatMap_nil, List.flatMap_cons] at h
      rcases List.append_eq_nil.mp h with ⟨hc, -⟩
      exact encodeChar_ne_nil c hc
    | cons c2 r2 =>
      simp only [encodeURIComponent, List.flatMap_cons] at h
      obtain ⟨hc, he⟩ := encodeChar_cancel h
      rw [hc, ih he]

/-- Characters that cannot change the path/query structure of a URL. -/
def keepsUrlStructure (c : Char) : Bool :=
  !(c = '/' || c = '?' || c = '#')

lemma keeps_toHexDigit : ∀ n < 16, keepsUrlStructure (toHexDigit n) = true := by decide

lemma mem_encodeChar_keeps (c x : Char) (hx : x ∈ encodeChar c) :
    keepsUrlStructure x = true := by
  unfold encodeChar at hx
  split at hx
  · rename_i hu
    rw [List.mem_singleton] at hx
    subst hx
    have h1 : x ≠ '/' := fun hc => by subst hc; exact absurd hu (by decide)
    have h2 : x ≠ '?' := fun hc => by subst hc; exact absurd hu (by decide)
    have h3 : x ≠ '#' := fun hc => by subst hc; exact absurd hu (by decide)
    simp [keepsUrlStructure, h1, h2, h3]
  · rcases List.mem_flatMap.mp hx with ⟨b, hb, hxb⟩
    have hb256 : b < 256 := utf8Bytes_lt c.toNat (char_toNat_lt c) b hb
    unfold percentByte at hxb
    fin_cases hxb
    · decide
    · exact keeps_toHexDigit _ (by omega)
    · exact keeps_toHexDigit _ (by omega)

lemma mem_encodeURIComponent_keeps (s : List Char) :
    (encodeURIComponent s).all keepsUrlStructure = true := by
  rw [List.all_eq_true]
  intro x hx
  rcases List.mem_flatMap.mp hx with ⟨c, -, hxc⟩
  exact mem_encodeChar_keeps c x hxc

/-! ### `URLSearchParams` serialization

`URLSearchParams.toString` serializes the appended pairs in order as
`k=v` joined by `&`, percent-encoding keys and values with the
`application/x-www-form-urlencoded` serializer (space becomes `+`;
ASCII alphanumerics and `* - . _` stay; everything else becomes the
percent-encoded UTF-8 bytes). -/

/-- One character under the `application/x-www-form-urlencoded` serializer. -/
def formEncodeChar (c : Char) : List Char :=
  if c = ' ' then ['+']
  else if c.isAlpha || c.isDigit || c = '*' || c = '-' || c = '.' || c = '_' then [c]
  else percentBytes (utf8Bytes c.toNat)

/-- `application/x-www-form-urlencoded` encoding of a string. -/
def formEncode (s : String) : String :=
  ⟨s.data.flatMap formEncodeChar⟩

/-- `URLSearchParams.toString()` for the given append sequence. -/
def searchParamsToString (ps : List (String × String)) : String :=
  String.intercalate "&" (ps.map fun p => formEncode p.1 ++ "=" ++ formEncode p.2)

/-! ### `JSON.stringify` for the request bodies the clients build -/

/-- Lowercase hexadecimal digit, as used in `\u00XX` escapes. -/
def toHexDigitLower (n : Nat) : Char :=
  if n < 10 then Char.ofNat (48 + n) else Char.ofNat (87 + n)

/-- Escaping of one character inside a JSON string literal, as done by
`JSON.stringify`. -/
def jsonEscapeChar (c : Char) : List Char :=
  if c = '"' then ['\\', '"']
  else if c = '\\' then ['\\', '\\']
  else if c = Char.ofNat 8 then ['\\', 'b']
  else if c = Char.ofNat 9 then ['\\', 't']
  else if c = Char.ofNat 10 then ['\\', 'n']
  else if c = Char.ofNat 12 then ['\\', 'f']
  else if c = Char.ofNat 13 then ['\\', 'r']
  else if c.toNat < 32 then
    ['\\', 'u', '0', '0', toHexDigitLower (c.toNat / 16), toHexDigitLower (c.toNat % 16)]
  else [c]

/-- `JSON.stringify` of a string value. -/
def jsonQuote (s : String) : String :=
  "\"" ++ String.mk (s.data.flatMap jsonEscapeChar) ++ "\""

/-- Body built by `getItemsBulk`: `JSON.stringify({ skus })`
(`client.ts` line 172). -/
def bulkBody (skus : List String) : String :=
  "\x7b\"skus\":[" ++ String.intercalate "," (skus.map jsonQuote) ++ "]\x7d"

/-- Body built by `predictSpellItem` in the spells client:
`JSON.stringify(options)` for `{ item_name, spell_ids }`. -/
def predictSpellItemBody (itemName : String) (spellIds : List Nat) : String :=
  "\x7b\"item_name\":" ++ jsonQuote itemName ++ ",\"spell_ids\":[" ++
    String.intercalate "," (spellIds.map Nat.repr) ++ "]\x7d"

/-! ### Client construction

JavaScript objects used as string-keyed records are modelled as
association lists in insertion order; a later binding for the same key
overrides an earlier one, exactly like object spread. `x || d` on a
string or number picks `d` when `x` is absent or falsy (empty string,
`0`). -/

/-- Lookup in a JavaScript-object-like association list: the latest
binding of the key wins, as with `{ ...a, ...b }` spread. -/
def objLookup (l : List (String × String)) (k : String) : Option String :=
  match l with
  | [] => none
  | (k2, v) :: rest =>
    match objLookup rest k with
    | some v2 => some v2
    | none => if k2 = k then some v else none

/-- Effective header object built by both constructors: the
`Content-Type: application/json` default binding followed by the
spread of `config.headers`. -/
def mkHeaders (hs : List (String × String)) : List (String × String) :=
  ("Content-Type", "application/json") :: hs

/-- Constructor options shared by `PriceDBClientConfig` and
`SpellsClientConfig`: every field is optional. -/
structure ClientConfig where
  baseUrl : Option String := none
  timeout : Option Nat := none
  headers : List (String × String) := []

/-- Fixed per-instance state of a client: set in the constructor and
never assigned afterwards. -/
structure Client where
  baseUrl : String
  timeout : Nat
  headers : List (String × String)

/-- JavaScript `x || d` for an optional string (empty string is falsy). -/
def jsOrDefaultStr (v : Option String) (d : String) : String :=
  match v with
  | some s => if s = "" then d else s
  | none => d

/-- JavaScript `x || d` for an optional number restricted to naturals
(`0` is falsy). -/
def jsOrDefaultNat (v : Option Nat) (d : Nat) : Nat :=
  match v with
  | some n => if n = 0 then d else n
  | none => d

/-- `new PriceDBClient(config)` (`client.ts` lines 43-50). -/
def mkPriceDBClient (cfg : ClientConfig) : Client :=
  { baseUrl := jsOrDefaultStr cfg.baseUrl "https://pricedb.io"
    timeout := jsOrDefaultNat cfg.timeout 10000
    headers := mkHeaders cfg.headers }

/-- `new SpellsClient(config)` (spells `client.ts` lines 46-53). -/
def mkSpellsClient (cfg : ClientConfig) : Client :=
  { baseUrl := jsOrDefaultStr cfg.baseUrl "https://spell.pricedb.io"
    timeout := jsOrDefaultNat cfg.timeout 10000
    headers := mkHeaders cfg.headers }

/-! ### The transport core `request<T>`

Both clients contain the same private `request` method: start an abort
timer at `this.timeout`, `fetch(baseUrl + endpoint)`, throw on a
non-success status, otherwise resolve with `response.json()`, and clear
the timer in a `finally` block on every path. JSON values are modelled
abstractly (numbers restricted to integers, which covers every literal
appearing in the claims); `response.json()` is modelled as the parsed
value carried by the response, `none` standing for a body that fails to
parse. -/

/-- Parsed JSON values. -/
inductive Json where
  | null
  | bool (b : Bool)
  | num (n : Int)
  | str (s : String)
  | arr (elems : List Json)
  | obj (fields : List (String × Json))

/-- The parts of a `fetch` `Response` the clients inspect: `ok`
(status in the success range 200-299), `status`, and the result of
`response.json()`. -/
structure HttpResponse where
  ok : Bool
  status : Nat
  json : Option Json

/-- Status check and body parsing of `request` (`client.ts` lines
69-73): throw `HTTP error! status: <status>` when `response.ok` is
false, otherwise return the parsed body as-is. -/
def handleResponse (r : HttpResponse) : Except String Json :=
  if !r.ok then .error ("HTTP error! status: " ++ Nat.repr r.status)
  else
    match r.json with
    | some j => .ok j
    | none => .error "SyntaxError: unexpected end of JSON input"

/-- How the awaited `fetch` can resolve: with a response, with a network
error, or rejected because the abort timer fired. -/
inductive FetchOutcome where
  | success (r : HttpResponse)
  | networkError
  | aborted

/-- One run of the `try`/`finally` body of `request` for a given fetch
outcome: the first component is the value returned or the error
propagated, the second records whether `clearTimeout` ran (the
`finally` block runs on every exit path, normal or exceptional). -/
def requestRun (o : FetchOutcome) : Except String Json × Bool :=
  match o with
  | .success r => (handleResponse r, true)
  | .networkError => (.error "TypeError: fetch failed", true)
  | .aborted => (.error "AbortError", true)

/-- The race `request` sets up between the fetch and the abort timer
started at `timeout`: `arrival` is the instant at which the fetch would
resolve on its own (`none` for a server that never responds). The timer
fires at `timeout` and aborts any fetch still in flight; the result is
the completion instant together with the run of the `try`/`finally`
body. -/
def requestRace (timeout : Nat) (arrival : Option (Nat × FetchOutcome)) :
    Nat × (Except String Json × Bool) :=
  match arrival with
  | none => (timeout, requestRun .aborted)
  | some (t, o) =>
    if timeout ≤ t then (timeout, requestRun .aborted) else (t, requestRun o)

/-! ### The endpoint methods -/

/-- Query parameter appended only when the numeric option is present and
truthy, i.e. the `if (options.x) params.append('x', options.x.toString())`
pattern (`0` is falsy in JavaScript). -/
def optNatParam (k : String) (v : Option Nat) : List (String × String) :=
  match v with
  | some n => if n = 0 then [] else [(k, Nat.repr n)]
  | none => []

/-- The endpoint methods of `PriceDBClient` that issue a request, with
their parameters (numeric parameters restricted to naturals). -/
inductive ApiCall where
  | health
  | getItems
  | getLatestPrices
  | getPrices (limit offset : Option Nat)
  | getItem (sku : String)
  | getItemHistory (sku : String) (start stop : Option Nat)
  | getItemStats (sku : String)
  | getItemsBulk (skus : List String)
  | getSnapshot (timestamp : Nat)
  | search (query : String) (limit : Option Nat)
  | compareItems (sku1 sku2 : String)
  | getCacheStats

/-- The `endpoint` string each `PriceDBClient` method passes to
`request` (the `stop` parameter of `getItemHistory` embeds the option
named `end` in the source, a reserved word in Lean). -/
def endpointOf (call : ApiCall) : String :=
  match call with
  | .health => "/api/"
  | .getItems => "/api/items"
  | .getLatestPrices => "/api/latest-prices"
  | .getPrices limit offset =>
    let queryString := searchParamsToString
      (optNatParam "limit" limit ++ optNatParam "offset" offset)
    if queryString = "" then "/api/prices" else "/api/prices?" ++ queryString
  | .getItem sku => "/api/item/" ++ encodeURIComponentS sku
  | .getItemHistory sku start stop =>
    let queryString := searchParamsToString
      (optNatParam "start" start ++ optNatParam "end" stop)
    if queryString = "" then "/api/item-history/" ++ encodeURIComponentS sku
    else "/api/item-history/" ++ encodeURIComponentS sku ++ "?" ++ queryString
  | .getItemStats sku => "/api/item-stats/" ++ encodeURIComponentS sku
  | .getItemsBulk _ => "/api/items-bulk"
  | .getSnapshot timestamp => "/api/snapshot/" ++ Nat.repr timestamp
  | .search query limit =>
    "/api/search?" ++ searchParamsToString (("q", query) :: optNatParam "limit" limit)
  | .compareItems sku1 sku2 =>
    "/api/compare/" ++ encodeURIComponentS sku1 ++ "/" ++ encodeURIComponentS sku2
  | .getCacheStats => "/api/cache-stats"

/-- HTTP method of each `PriceDBClient` endpoint (only `getItemsBulk`
sets one; `fetch` defaults to GET). -/
def methodOf (call : ApiCall) : String :=
  match call with
  | .getItemsBulk _ => "POST"
  | _ => "GET"

/-- Request body of each `PriceDBClient` endpoint. -/
def bodyOf (call : ApiCall) : Option String :=
  match call with
  | .getItemsBulk skus => some (bulkBody skus)
  | _ => none

/-- The HTTP request a call hands to `fetch`. -/
structure RequestSpec where
  method : String
  url : String
  body : Option String

/-- One endpoint-method call on a `PriceDBClient` instance: the request
it issues and the instance state afterwards. No method assigns to
`this.baseUrl`, `this.timeout` or `this.headers`, so the state is
returned unchanged. -/
def issue (c : Client) (call : ApiCall) : RequestSpec × Client :=
  ({ method := methodOf call
     url := c.baseUrl ++ endpointOf call
     body := bodyOf call }, c)

/-- The endpoint methods of `SpellsClient`, with their parameters. -/
inductive SpellsCall where
  | predict (spells item : String)
  | predictSpellItem (itemName : String) (spellIds : List Nat)
  | getSpellValue (ids : String)
  | getSpellAnalytics
  | getItemSpellPremium (item ids : String)
  | spellIdToName (id : Nat)
  | spellNameToId (name : String)
  | getSpells
  | getFetcherStatus
  | health
  | getStats
  | getStatusProxy

/-- The `endpoint` string each `SpellsClient` method passes to
`request`. -/
def spellsEndpointOf (call : SpellsCall) : String :=
  match call with
  | .predict spells item =>
    "/api/spell/predict?" ++ searchParamsToString [("spells", spells), ("item", item)]
  | .predictSpellItem _ _ => "/api/spell/predict-spell-item"
  | .getSpellValue ids =>
    "/api/spell/spell-value?" ++ searchParamsToString [("ids", ids)]
  | .getSpellAnalytics => "/api/spell/spell-analytics"
  | .getItemSpellPremium item ids =>
    "/api/spell/item-spell-premium?" ++ searchParamsToString [("item", item), ("ids", ids)]
  | .spellIdToName id =>
    "/api/spell/spell-id-to-name?" ++ searchParamsToString [("id", Nat.repr id)]
  | .spellNameToId name =>
    "/api/spell/spell-name-to-id?" ++ searchParamsToString [("name", name)]
  | .getSpells => "/api/spell/spells"
  | .getFetcherStatus => "/api/spell/fetcher-status"
  | .health => "/api/spell/health"
  | .getStats => "/api/stats"
  | .getStatusProxy => "/api/spell/status-proxy"

/-- HTTP method of each `SpellsClient` endpoint. -/
def spellsMethodOf (call : SpellsCall) : String :=
  match call with
  | .predictSpellItem _ _ => "POST"
  | _ => "GET"

/-- Request body of each `SpellsClient` endpoint. -/
def spellsBodyOf (call : SpellsCall) : Option String :=
  match call with
  | .predictSpellItem itemName spellIds => some (predictSpellItemBody itemName spellIds)
  | _ => none

/-- One endpoint-method call on a `SpellsClient` instance. -/
def issueSpells (c : Client) (call : SpellsCall) : RequestSpec × Client :=
  ({ method := spellsMethodOf call
     url := c.baseUrl ++ spellsEndpointOf call
     body := spellsBodyOf call }, c)

/-- Display options of `getGraphUrl`. -/
structure GraphOptions where
  header : Option Bool := none
  height : Option Nat := none
  width : Option String := none

/-- Query parameters appended by `getGraphUrl` (`client.ts` lines
233-236): `header` only when strictly `false`, `height` and `width`
only when truthy. -/
def graphParams (o : GraphOptions) : List (String × String) :=
  (match o.header with
    | some false => [("header", "false")]
    | _ => []) ++
  (match o.height with
    | some h => if h = 0 then [] else [("height", Nat.repr h)]
    | none => []) ++
  (match o.width with
    | some w => if w = "" then [] else [("width", w)]
    | none => [])

/-- `PriceDBClient.getGraphUrl` (`client.ts` lines 229-242): the only
endpoint that performs no request and just returns a string. -/
def getGraphUrl (c : Client) (sku : String) (o : GraphOptions) : String :=
  let queryString := searchParamsToString (graphParams o)
  if queryString = "" then c.baseUrl ++ "/api/graph/" ++ encodeURIComponentS sku
  else c.baseUrl ++ "/api/graph/" ++ encodeURIComponentS sku ++ "?" ++ queryString

example :
    getGraphUrl (mkPriceDBClient {}) "40;11;kt-3" { header := some false, height := some 400 } =
      "https://pricedb.io/api/graph/40%3B11%3Bkt-3?header=false&height=400" := by decide
example :
    endpointOf (.search "Rocket Launcher" (some 5)) = "/api/search?q=Rocket+Launcher&limit=5" := by
  decide
example : bulkBody [] = "\x7b\"skus\":[]\x7d" := by decide
example : bulkBody ["a\"b"] = "\x7b\"skus\":[\"a\\\"b\"]\x7d" := by decide

/-! ### The claims -/

/-- C1: `getGraphUrl` is pure and deterministic: for every client whose
`baseUrl` is `https://pricedb.io` and every sku string, the call
`getGraphUrl(sku, {header:false, height:400})` returns exactly the
string `https://pricedb.io/api/graph/` ++ `encodeURIComponent(sku)` ++
`?header=false&height=400`. In this embedding `getGraphUrl` is a total
function of the construction-time configuration and its own arguments
alone, so the result involves no I/O and cannot depend on call order or
on prior calls on the instance. -/
theorem getGraphUrl_pure (c : Client) (sku : String)
    (hbase : c.baseUrl = "https://pricedb.io") :
    getGraphUrl c sku { header := some false, height := some 400, width := none } =
      "https://pricedb.io/api/graph/" ++ encodeURIComponentS sku ++
        "?header=false&height=400" := by
  have hq : searchParamsToString
      (graphParams { header := some false, height := some 400, width := none }) =
      "header=false&height=400" := by decide
  unfold getGraphUrl
  rw [hq, if_neg (by decide), hbase]
  have h1 : ("https://pricedb.io" ++ "/api/graph/" : String) =
      "https://pricedb.io/api/graph/" := rfl
  rw [h1, String.append_assoc]
  rfl

theorem getGraphUrl_pure_witness :
    getGraphUrl (mkPriceDBClient {}) "40;11;kt-3"
        { header := some false, height := some 400, width := none } =
      "https://pricedb.io/api/graph/" ++ encodeURIComponentS "40;11;kt-3" ++
        "?header=false&height=400" :=
  getGraphUrl_pure (mkPriceDBClient {}) "40;11;kt-3" rfl

/-- C2: for every response handed back by the transport shared by all
endpoint methods of both clients, a non-success status (`response.ok`
false) yields an error whose message carries the numeric status code and
no value, while a success status yields the parsed JSON body with no
HTTP-status error. -/
theorem request_status_check (r : HttpResponse) :
    (r.ok = false →
      handleResponse r = .error ("HTTP error! status: " ++ Nat.repr r.status)) ∧
    (r.ok = true → ∀ j, r.json = some j → handleResponse r = .ok j) := by
  constructor
  · intro h
    simp [handleResponse, h]
  · intro h j hj
    simp [handleResponse, h, hj]

theorem request_status_check_witness :
    handleResponse { ok := false, status := 404, json := none } =
        .error ("HTTP error! status: " ++ Nat.repr 404) ∧
      handleResponse { ok := true, status := 200, json := some (.num 7) } = .ok (.num 7) :=
  ⟨(request_status_check { ok := false, status := 404, json := none }).1 rfl,
    (request_status_check { ok := true, status := 200, json := some (.num 7) }).2 rfl
      (.num 7) rfl⟩

/-- C3: with the timeout defaulting to 10000 ms when not supplied at
construction (in either client), a request against a server that never
responds is aborted by the cancellation timer exactly at the configured
timeout `T` and surfaces as a failure to the caller — it completes by
`T + ε` and never hangs. -/
theorem request_timeout_fails (cfg : ClientConfig) (T : Nat) :
    (cfg.timeout = none →
      (mkPriceDBClient cfg).timeout = 10000 ∧ (mkSpellsClient cfg).timeout = 10000) ∧
    requestRace T none = (T, (.error "AbortError", true)) := by
  constructor
  · intro h
    constructor <;> simp [mkPriceDBClient, mkSpellsClient, jsOrDefaultNat, h]
  · rfl

theorem request_timeout_fails_witness :
    ((mkPriceDBClient {}).timeout = 10000 ∧ (mkSpellsClient {}).timeout = 10000) ∧
      requestRace 10000 none = (10000, (.error "AbortError", true)) :=
  ⟨(request_timeout_fails {} 10000).1 rfl, (request_timeout_fails {} 10000).2⟩

/-- C4: for every headers map `H` supplied at construction, the
effective header object built by both constructors (the default
`Content-Type: application/json` followed by the spread of `H`) binds
`Content-Type` to `application/json` whenever `H` does not bind that
key, and binds every key bound in `H` to the value `H` gives it. -/
theorem headers_merge_default (H : List (String × String)) :
    (objLookup H "Content-Type" = none →
      objLookup (mkHeaders H) "Content-Type" = some "application/json") ∧
    (∀ k v, objLookup H k = some v → objLookup (mkHeaders H) k = some v) := by
  constructor
  · intro h
    simp [mkHeaders, objLookup, h]
  · intro k v h
    simp [mkHeaders, objLookup, h]

theorem headers_merge_default_witness :
    objLookup (mkHeaders [("X-Api-Key", "abc")]) "Content-Type" =
        some "application/json" ∧
      objLookup (mkHeaders [("Content-Type", "text/plain")]) "Content-Type" =
        some "text/plain" :=
  ⟨(headers_merge_default [("X-Api-Key", "abc")]).1 rfl,
    (headers_merge_default [("Content-Type", "text/plain")]).2
      "Content-Type" "text/plain" rfl⟩

/-- C5: no endpoint method of either client mutates the configuration
fixed at construction, so after any first call the instance state is
unchanged and the request issued by a second call is exactly the request
that same call issues on the untouched instance — it depends only on its
own parameters and the construction-time configuration. -/
theorem client_state_immutable (c : Client) (a1 a2 : ApiCall)
    (s1 s2 : SpellsCall) :
    (issue c a1).2 = c ∧
    (issue (issue c a1).2 a2).1 = (issue c a2).1 ∧
    (issueSpells c s1).2 = c ∧
    (issueSpells (issueSpells c s1).2 s2).1 = (issueSpells c s2).1 :=
  ⟨rfl, rfl, rfl, rfl⟩

/-- C6: on every execution path of the transport core — success,
non-success status, JSON-parse failure, network failure, or timeout
abort, at whatever instant the race resolves — the `finally` block runs,
so the cancellation timer is cleared before the call completes or the
error propagates. -/
theorem timer_always_cleared (o : FetchOutcome) (T : Nat)
    (arrival : Option (Nat × FetchOutcome)) :
    (requestRun o).2 = true ∧ (requestRace T arrival).2.2 = true := by
  constructor
  · cases o with
    | success r => rfl
    | networkError => rfl
    | aborted => rfl
  · rcases arrival with _ | ⟨t, o2⟩
    · rfl
    · dsimp [requestRace]
      split
      · rfl
      · cases o2 with
        | success r => rfl
        | networkError => rfl
        | aborted => rfl

/-- C7: `getItemsBulk([])` issues a POST to `/api/items-bulk` whose JSON
body is exactly `{"skus":[]}`; the call is total, so nothing is thrown
before the network call and there is no precondition on list
non-emptiness. -/
theorem getItemsBulk_empty_request (c : Client) :
    (issue c (.getItemsBulk [])).1.method = "POST" ∧
    (issue c (.getItemsBulk [])).1.url = c.baseUrl ++ "/api/items-bulk" ∧
    (issue c (.getItemsBulk [])).1.body = some "\x7b\"skus\":[]\x7d" :=
  ⟨rfl, rfl, rfl⟩

/-- C8: item lookup passes the JSON body of the server response through
verbatim: for the documented response object, the transport returns
exactly that object — no transformation of numeric values, no schema
validation — and item lookup for the sku `1;6` addresses
`/api/item/1%3B6`. -/
theorem getItem_roundtrip_verbatim :
    handleResponse
        { ok := true, status := 200,
          json := some (.obj [("name", .str "Test Item"), ("sku", .str "1;6"),
            ("buy", .obj [("keys", .num 1), ("metal", .num 2)]),
            ("sell", .obj [("keys", .num 1), ("metal", .num 3)]),
            ("source", .str "x"), ("time", .num 1700000000)]) } =
      .ok (.obj [("name", .str "Test Item"), ("sku", .str "1;6"),
        ("buy", .obj [("keys", .num 1), ("metal", .num 2)]),
        ("sell", .obj [("keys", .num 1), ("metal", .num 3)]),
        ("source", .str "x"), ("time", .num 1700000000)]) ∧
    endpointOf (.getItem "1;6") = "/api/item/1%3B6" :=
  ⟨rfl, by decide⟩

/-- C9: numeric query options equal to 0 are treated as absent, because
`0` is falsy in the `if (options.x)` guards: for `getPrices` a limit or
offset of 0, for `getItemHistory` a start or end of 0, and for `search`
a limit of 0 each produce a request URL identical to the one issued with
the option left out entirely. -/
theorem zero_numeric_options_omitted :
    (∀ offset, endpointOf (.getPrices (some 0) offset) =
      endpointOf (.getPrices none offset)) ∧
    (∀ limit, endpointOf (.getPrices limit (some 0)) =
      endpointOf (.getPrices limit none)) ∧
    (∀ sku stop, endpointOf (.getItemHistory sku (some 0) stop) =
      endpointOf (.getItemHistory sku none stop)) ∧
    (∀ sku start, endpointOf (.getItemHistory sku start (some 0)) =
      endpointOf (.getItemHistory sku start none)) ∧
    (∀ query, endpointOf (.search query (some 0)) =
      endpointOf (.search query none)) :=
  ⟨fun _ => rfl, fun _ => rfl, fun _ _ => rfl, fun _ _ => rfl, fun _ => rfl⟩

/-- C10: every item identifier embedded as a URL path segment is
percent-encoded: `getItem`, `getItemHistory`, `getItemStats`,
`compareItems` (both arguments) and `getGraphUrl` place exactly
`encodeURIComponent(sku)` in the path; `encodeURIComponent` is
injective, so distinct skus yield distinct path segments; and its output
never contains `/`, `?` or `#`, so a sku can never alter the path
structure or query of the request. -/
theorem sku_path_percent_encoded :
    (∀ sku, endpointOf (.getItem sku) = "/api/item/" ++ encodeURIComponentS sku) ∧
    (∀ sku start stop, ∃ query,
      endpointOf (.getItemHistory sku start stop) =
        "/api/item-history/" ++ encodeURIComponentS sku ++ query) ∧
    (∀ sku, endpointOf (.getItemStats sku) =
      "/api/item-stats/" ++ encodeURIComponentS sku) ∧
    (∀ sku1 sku2, endpointOf (.compareItems sku1 sku2) =
      "/api/compare/" ++ encodeURIComponentS sku1 ++ "/" ++ encodeURIComponentS sku2) ∧
    (∀ c sku o, ∃ query,
      getGraphUrl c sku o =
        c.baseUrl ++ "/api/graph/" ++ encodeURIComponentS sku ++ query) ∧
    (∀ sku1 sku2, encodeURIComponentS sku1 = encodeURIComponentS sku2 →
      sku1 = sku2) ∧
    (∀ sku, (encodeURIComponentS sku).data.all keepsUrlStructure = true) := by
  refine ⟨fun _ => rfl, ?_, fun _ => rfl, fun _ _ => rfl, ?_, ?_, ?_⟩
  · intro sku start stop
    dsimp [endpointOf]
    split
    · exact ⟨"", (String.append_empty _).symm⟩
    · exact ⟨"?" ++ searchParamsToString (optNatParam "start" start ++ optNatParam "end" stop),
        (String.append_assoc _ _ _)⟩
  · intro c sku o
    dsimp [getGraphUrl]
    split
    · exact ⟨"", (String.append_empty _).symm⟩
    · exact ⟨"?" ++ searchParamsToString (graphParams o), (String.append_assoc _ _ _)⟩
  · intro sku1 sku2 h
    exact String.ext (encodeURIComponent_inj (congrArg String.data h))
  · intro sku
    exact mem_encodeURIComponent_keeps sku.data

theorem sku_path_percent_encoded_witness :
    ("a/b?c" : String) = "a/b?c" ∧
      (encodeURIComponentS "a b/c?d#e").data.all keepsUrlStructure = true :=
  ⟨sku_path_percent_encoded.2.2.2.2.2.1 "a/b?c" "a/b?c" (by decide),
    sku_path_percent_encoded.2.2.2.2.2.2 "a b/c?d#e"⟩
